import Mathlib

/-!
Verification development for the form-editing system: a frontend
(upload page and admin dashboard, embedded from the JavaScript source)
and the core document/mutation/orchestration engine (modelled from the
specification, whose implementation is not part of the visible sources).
-/

namespace DE4

/-! ## Upload page (embedded from the upload page component) -/

/-- A selected file, as seen by the upload page: only its name matters
to the file-type gate. -/
structure UploadFile where
  name : String
deriving DecidableEq

/-- The analysis result displayed after a successful upload. -/
structure UploadResult where
  uploaded_by : String
  total_sheets : Nat
  worksheets : List String
deriving DecidableEq

/-- The two pieces of component state touched by `handleFileSelect`:
the pending file and the previous upload result. -/
structure UploadState where
  file : Option UploadFile
  uploadResult : Option UploadResult
deriving DecidableEq

/-- The toast message emitted when the selected file is rejected. -/
def fileTypeErrorMsg : String := "Please select a valid XML or XLS file"

/-- Model of JavaScript `String.prototype.endsWith`: suffix test on the
character sequence. -/
def strEndsWith (s suf : String) : Bool :=
  suf.data.isSuffixOf s.data

/-- `handleFileSelect` from the upload page: if the argument is non-null
and its name ends with ".xml" or ".xls", set the pending file and clear
any previous upload result; otherwise leave the state unchanged and
emit an error toast (returned as the second component). -/
def handleFileSelect (selectedFile : Option UploadFile) (st : UploadState) :
    UploadState × Option String :=
  match selectedFile with
  | some f =>
    if strEndsWith f.name ".xml" || strEndsWith f.name ".xls" then
      ({ st with file := some f, uploadResult := none }, none)
    else
      (st, some fileTypeErrorMsg)
  | none => (st, some fileTypeErrorMsg)

/-- The acceptance condition of the file-type gate, factored out of
`handleFileSelect` for stating properties. -/
def acceptsFile : Option UploadFile → Bool
  | some f => strEndsWith f.name ".xml" || strEndsWith f.name ".xls"
  | none => false

/-! ## Admin dashboard (embedded from the dashboard component) -/

/-- The two statistics fields used by the success-rate computation.
The backend supplies integer operation counts. -/
structure DashboardStats where
  form_operations : Int
  successful_operations : Int
deriving DecidableEq

/-- Model of JavaScript `Number.prototype.toFixed(1)` on an exact
rational: round to one decimal place and render. -/
def toFixed1 (q : ℚ) : String :=
  let n : Int := round (q * 10)
  (if n < 0 then "-" else "") ++ toString (n.natAbs / 10) ++ "." ++ toString (n.natAbs % 10)

/-- The dashboard's `successRate` expression: guard on
`stats.form_operations > 0`, otherwise the literal string "0.0". -/
def successRate (stats : DashboardStats) : String :=
  if 0 < stats.form_operations then
    toFixed1 (((stats.successful_operations : ℚ) / (stats.form_operations : ℚ)) * 100)
  else "0.0"

/-- Division that refuses a zero denominator, used to express that the
dashboard never evaluates the division with denominator zero. -/
def safeDiv (a b : ℚ) : Option ℚ :=
  if b = 0 then none else some (a / b)

/-- `successRate` recomputed with the division replaced by `safeDiv`:
returns `none` exactly when a zero-denominator division would occur. -/
def successRateChecked (stats : DashboardStats) : Option String :=
  if 0 < stats.form_operations then
    (safeDiv (stats.successful_operations : ℚ) (stats.form_operations : ℚ)).map
      (fun q => toFixed1 (q * 100))
  else some "0.0"

/-- One customization request, as consumed by the dashboard's status
reduction: only its status string matters. -/
structure CustomizationRequest where
  status : String
deriving DecidableEq

/-- The accumulator object of the `statusCounts` reduction; a missing
bucket (`none`) models an absent JavaScript object property. -/
structure StatusCounts where
  completed : Option Nat
  failed : Option Nat
  pending : Option Nat
deriving DecidableEq

/-- One step of the dashboard's `reduce`: route the request into
exactly one bucket by its status, defaulting a missing bucket to 0. -/
def statusCountsStep (acc : StatusCounts) (req : CustomizationRequest) : StatusCounts :=
  if req.status = "approved" ∨ req.status = "deployed" then
    { acc with completed := some (acc.completed.getD 0 + 1) }
  else if req.status = "revision_requested" ∨ req.status = "cancelled" then
    { acc with failed := some (acc.failed.getD 0 + 1) }
  else
    { acc with pending := some (acc.pending.getD 0 + 1) }

/-- The dashboard's `statusCounts`: left fold of the step over the
customization requests, starting from the empty object. -/
def statusCounts (reqs : List CustomizationRequest) : StatusCounts :=
  reqs.foldl statusCountsStep ⟨none, none, none⟩

/-- The three pie-chart values built from `statusCounts`, each bucket
defaulting to 0 when missing, in the order Failed, Completed, Pending. -/
def requestsDataValues (sc : StatusCounts) : List Nat :=
  [sc.failed.getD 0, sc.completed.getD 0, sc.pending.getD 0]

/-- Total of the three buckets of an accumulator. -/
def bucketTotal (sc : StatusCounts) : Nat :=
  sc.completed.getD 0 + sc.failed.getD 0 + sc.pending.getD 0

/-! ## Core document model

The mutation/orchestration core is not part of the visible sources
(only its UI callers are), so it is modelled from the specification. -/

/-- Modelled from the spec: the missing Document Model's markup nodes.
Raw markup is a forest of well-formed markup nodes: elements with a tag
and children, or text. -/
inductive Node where
  | elem (tag : String) (children : List Node)
  | text (s : String)

/-- Modelled from the spec: a Row is an ordered mapping from column
name to cell value (insertion order = column discovery order). -/
abbrev Row := List (String × String)

/-- Modelled from the spec: a markup node recognized as one cell — an
element whose single child is the cell's textual value. -/
def cellOf : Node → Option (String × String)
  | .elem c [.text v] => some (c, v)
  | _ => none

/-- Modelled from the spec: a markup node recognized as one row — an
element all of whose children are cell nodes. -/
def rowOf : Node → Option Row
  | .elem _ cells => cells.mapM cellOf
  | .text _ => none

/-- Modelled from the spec: sheet recognition by structural shape — a
container with a nonempty list of uniformly-shaped row children. -/
def sheetOf : Node → Option (String × List Row)
  | .elem name children =>
    if children.isEmpty then none
    else
      match children.mapM rowOf with
      | some rows => some (name, rows)
      | none => none
  | .text _ => none

/-- Modelled from the spec: one item of a Document — a recognized Sheet
(keeping the original markup subtree verbatim for lossless round-trip,
with a dirty flag set once mutated) or opaque scaffolding. -/
inductive DocItem where
  | sheetItem (name : String) (rows : List Row) (orig : Node) (dirty : Bool)
  | scaffold (n : Node)

/-- Modelled from the spec: the Document — an ordered sequence of
sheets and scaffolding, in original order. -/
structure Document where
  items : List DocItem

/-- Modelled from the spec: classification of one top-level node by
`parse`: a recognized sheet container, or verbatim scaffolding. -/
def parseNode (n : Node) : DocItem :=
  match sheetOf n with
  | some nr => .sheetItem nr.1 nr.2 n false
  | none => .scaffold n

/-- Modelled from the spec: `parse` — scan top-level markup nodes and
classify each, preserving non-matching nodes as opaque scaffolding. -/
def parse (raw : List Node) : Document :=
  ⟨raw.map parseNode⟩

/-- Modelled from the spec: regeneration of the markup subtree of a
sheet whose rows changed since parse. -/
def renderSheet (name : String) (rows : List Row) : Node :=
  .elem name (rows.map (fun r => .elem "row" (r.map (fun cv => .elem cv.1 [.text cv.2]))))

/-- Modelled from the spec: serialization of one Document item — an
unmodified subtree is copied from the stored original, a dirty sheet is
regenerated. -/
def serializeItem : DocItem → Node
  | .sheetItem name rows orig dirty => if dirty then renderSheet name rows else orig
  | .scaffold n => n

/-- Modelled from the spec: `serialize` — re-emit scaffolding and
sheets in original relative order. -/
def serialize (d : Document) : List Node :=
  d.items.map serializeItem

/-! ## Core mutation engine (modelled from the spec) -/

/-- Modelled from the spec: the operation-scoped error taxonomy of the
missing Mutation Engine. -/
inductive MutationError where
  | unknownSheet
  | rowNotFound
  | fieldNotFound
  | duplicateChoiceKey
  | ambiguousTarget
deriving DecidableEq

/-- Modelled from the spec: the missing EditOperation tagged variant. -/
inductive EditOperation where
  | addRow (sheetName : String) (rowData : Row)
  | updateCell (sheetName : String) (rowSelector : Row → Bool) (column : String) (value : String)
  | deleteRows (sheetName : String) (pred : Row → Bool)
  | addChoiceEntries (listName : String) (entries : List String)
  | renameField (oldName newName : String)
  | other (description : String)

/-- Modelled from the spec: the kind of an operation, used for the
per-distinct-operation-kind retry bound. -/
inductive OpKind where
  | addRowK
  | updateCellK
  | deleteRowsK
  | addChoiceEntriesK
  | renameFieldK
  | otherK
deriving DecidableEq

/-- Modelled from the spec: kind projection of an EditOperation. -/
def opKind : EditOperation → OpKind
  | .addRow _ _ => .addRowK
  | .updateCell _ _ _ _ => .updateCellK
  | .deleteRows _ _ => .deleteRowsK
  | .addChoiceEntries _ _ => .addChoiceEntriesK
  | .renameField _ _ => .renameFieldK
  | .other _ => .otherK

/-- Modelled from the spec: lookup of a column's cell value in a Row. -/
def rowGet : Row → String → Option String
  | [], _ => none
  | (c, v) :: r, col => if c = col then some v else rowGet r col

/-- Modelled from the spec: write one cell of a Row, appending the
column when the row does not have it yet. -/
def setCell (r : Row) (col v : String) : Row :=
  if r.any (fun cv => decide (cv.1 = col)) then
    r.map (fun cv => if cv.1 = col then (cv.1, v) else cv)
  else r ++ [(col, v)]

/-- Modelled from the spec: find the first sheet with the given
(case-sensitive) name among the Document items. -/
def findSheet : List DocItem → String → Option (List Row)
  | [], _ => none
  | .sheetItem n rows _ _ :: rest, name =>
    if n = name then some rows else findSheet rest name
  | .scaffold _ :: rest, name => findSheet rest name

/-- Modelled from the spec: sheet lookup on a Document. -/
def findSheetD (d : Document) (name : String) : Option (List Row) :=
  findSheet d.items name

/-- Modelled from the spec: replace the rows of the named sheet, marking
it dirty so serialization regenerates its subtree. -/
def updateSheetItems : List DocItem → String → (List Row → List Row) → List DocItem
  | [], _, _ => []
  | .sheetItem n rows orig dirty :: rest, name, f =>
    if n = name then .sheetItem n (f rows) orig true :: rest
    else .sheetItem n rows orig dirty :: updateSheetItems rest name f
  | .scaffold m :: rest, name, f => .scaffold m :: updateSheetItems rest name f

/-- Modelled from the spec: row update of one named sheet of a
Document. -/
def updateSheet (d : Document) (name : String) (f : List Row → List Row) : Document :=
  ⟨updateSheetItems d.items name f⟩

/-- Modelled from the spec: a sheet's column set, inferred as the union
of keys across its rows in discovery order. -/
def sheetColumns (rows : List Row) : List String :=
  rows.foldl (fun acc r => acc ++ (r.map Prod.fst).filter (fun c => decide (c ∉ acc))) []

/-- Modelled from the spec: completion of an appended row — unspecified
columns get empty cells. -/
def completeRow (rowData : Row) (cols : List String) : Row :=
  rowData ++ (cols.filter (fun c => decide (rowGet rowData c = none))).map (fun c => (c, ""))

/-- Modelled from the spec: the choice-membership row recording one
entry of a choice list. -/
def choiceRow (listName key : String) : Row :=
  [("list_name", listName), ("name", key)]

/-- Modelled from the spec: the entry keys held by the given rows for
one choice list. -/
def choiceKeys (rows : List Row) (listName : String) : List String :=
  rows.filterMap (fun r =>
    if rowGet r "list_name" = some listName then rowGet r "name" else none)

/-- Modelled from the spec: the entry keys already present in the
Document's choices sheet for one list name. -/
def existingChoiceKeys (d : Document) (listName : String) : List String :=
  match findSheetD d "choices" with
  | some rows => choiceKeys rows listName
  | none => []

/-- Modelled from the spec: whether a field of the given name exists in
the survey sheet. -/
def fieldExists (d : Document) (fieldName : String) : Bool :=
  match findSheetD d "survey" with
  | some rows => rows.any (fun r => decide (rowGet r "name" = some fieldName))
  | none => false

/-- Modelled from the spec: best-effort textual substitution of a
renamed field name within one row's cell values. -/
def renameInRow (oldN newN : String) (r : Row) : Row :=
  r.map (fun cv => if cv.2 = oldN then (cv.1, newN) else cv)

/-- Modelled from the spec: the rename rewrite applied across every
sheet of the Document. -/
def renameAll (d : Document) (oldN newN : String) : Document :=
  ⟨d.items.map (fun it =>
    match it with
    | .sheetItem n rows orig _ => .sheetItem n (rows.map (renameInRow oldN newN)) orig true
    | .scaffold m => .scaffold m)⟩

/-- Modelled from the spec: the missing Mutation Engine's `apply` — one
EditOperation against a Document, returning the updated Document or
the original Document together with an operation-scoped error. -/
def applyOp (d : Document) : EditOperation → Document × Option MutationError
  | .addRow s rowData =>
    match findSheetD d s with
    | none => (d, some .unknownSheet)
    | some _ =>
      (updateSheet d s (fun rs => rs ++ [completeRow rowData (sheetColumns rs)]), none)
  | .updateCell s sel col v =>
    match findSheetD d s with
    | none => (d, some .unknownSheet)
    | some rows =>
      if rows.any sel then
        (updateSheet d s (List.map (fun r => if sel r then setCell r col v else r)), none)
      else (d, some .rowNotFound)
  | .deleteRows s pred =>
    match findSheetD d s with
    | none => (d, some .unknownSheet)
    | some _ => (updateSheet d s (fun rs => rs.filter (fun r => !(pred r))), none)
  | .addChoiceEntries ln entries =>
    match findSheetD d "choices" with
    | none => (d, some .unknownSheet)
    | some rows =>
      if entries.any (fun k => decide (k ∈ choiceKeys rows ln)) then
        (d, some .duplicateChoiceKey)
      else
        (updateSheet d "choices" (fun rs => rs ++ entries.map (choiceRow ln)), none)
  | .renameField oldN newN =>
    if fieldExists d oldN then (renameAll d oldN newN, none)
    else (d, some .fieldNotFound)
  | .other _ => (d, none)

/-! ## Core orchestration loop (modelled from the spec) -/

/-- Modelled from the spec: one entry of the EditSession's operation
log — the operation, a success flag, and the error if any. -/
structure LogEntry where
  op : EditOperation
  success : Bool
  error : Option MutationError

/-- Modelled from the spec: the closed set of structured signals the
loop accepts from the external reasoning oracle. -/
inductive OracleResponse where
  | propose (op : EditOperation)
  | complete
  | cannotProceed

/-- Modelled from the spec: the reasoning oracle, as a function of the
operation log so far. -/
abbrev Oracle := List LogEntry → OracleResponse

/-- Modelled from the spec: the distinct terminal outcomes of a run. -/
inductive RunStatus where
  | terminatedSuccess
  | terminatedFailure
  | abortedMaxIterations
deriving DecidableEq

/-- Modelled from the spec: the EditSession status. -/
inductive SessionStatus where
  | opened
  | committed
  | rolledBack
deriving DecidableEq

/-- Modelled from the spec: the loop's configuration — iteration cap
(default 15) and per-operation-kind retry bound (default 2). -/
structure Cfg where
  maxIterations : Nat := 15
  retryLimit : Nat := 2

/-- Modelled from the spec: the running EditSession state — the
originally-loaded Document, the working Document, the operation log,
the per-kind failure counts, and the cycles performed. -/
structure RunState where
  origDoc : Document
  doc : Document
  log : List LogEntry
  failCounts : OpKind → Nat
  iters : Nat

/-- Modelled from the spec: the outcome of one reasoning/execute cycle:
continue looping, or halt with a terminal status. -/
inductive StepOut where
  | cont (st : RunState)
  | halt (status : RunStatus) (st : RunState)

/-- The state carried by a step outcome. -/
def stepOutState : StepOut → RunState
  | .cont st => st
  | .halt _ st => st

/-- Modelled from the spec: the state recorded after one failed apply —
failure logged, the kind's failure count bumped, the working Document
untouched. -/
def failState (st : RunState) (op : EditOperation) (e : MutationError) : RunState :=
  { st with
    log := st.log ++ [⟨op, false, some e⟩],
    failCounts := fun k' =>
      if k' = opKind op then st.failCounts (opKind op) + 1 else st.failCounts k',
    iters := st.iters + 1 }

/-- Modelled from the spec: one Reasoning→Executing→Evaluating cycle of
the missing Orchestration Loop. A completion signal terminates with
success, a cannot-proceed signal with failure; a proposed operation is
applied, a success loops back, an operation-scoped failure loops back
until the per-kind retry bound is exceeded, which escalates to
failure. -/
def stepCycle (cfg : Cfg) (oracle : Oracle) (st : RunState) : StepOut :=
  match oracle st.log with
  | .complete => .halt .terminatedSuccess st
  | .cannotProceed => .halt .terminatedFailure st
  | .propose op =>
    match applyOp st.doc op with
    | (d', none) =>
      .cont { st with doc := d', log := st.log ++ [⟨op, true, none⟩], iters := st.iters + 1 }
    | (_, some e) =>
      if cfg.retryLimit < st.failCounts (opKind op) + 1 then
        .halt .terminatedFailure (failState st op e)
      else .cont (failState st op e)

/-- Modelled from the spec: the loop driver — fuel counts the cycles
still allowed by the iteration cap; exhausting it aborts the run. -/
def loopRun (cfg : Cfg) (oracle : Oracle) : Nat → RunState → RunStatus × RunState
  | 0, st => (.abortedMaxIterations, st)
  | fuel + 1, st =>
    match stepCycle cfg oracle st with
    | .halt status st' => (status, st')
    | .cont st' => loopRun cfg oracle fuel st'

/-- Modelled from the spec: the structured run summary returned to the
caller. -/
structure RunResult where
  status : RunStatus
  sessionStatus : SessionStatus
  committedDoc : Document
  log : List LogEntry
  iterations : Nat

/-- Modelled from the spec: the freshly-opened EditSession over the
loaded Document. -/
def initState (d : Document) : RunState :=
  ⟨d, d, [], fun _ => 0, 0⟩

/-- Modelled from the spec: the missing loop entry point `runEdit` —
run the loop under the iteration cap; commit the working Document on
success, otherwise close the session rolled back, preserving the
originally-loaded Document. -/
def runEdit (cfg : Cfg) (oracle : Oracle) (d : Document) : RunResult :=
  let res := loopRun cfg oracle cfg.maxIterations (initState d)
  { status := res.1
    sessionStatus := if res.1 = .terminatedSuccess then .committed else .rolledBack
    committedDoc := if res.1 = .terminatedSuccess then res.2.doc else res.2.origDoc
    log := res.2.log
    iterations := res.2.iters }

/-- The default configuration: cap 15, retry bound 2. -/
def cfgDefault : Cfg := {}

/-- An oracle that never signals completion and always proposes a
benign no-op operation. -/
def noopOracle : Oracle := fun _ => .propose (.other "noop")

/-- An operation that fails on the empty document (unknown sheet). -/
def failOp : EditOperation :=
  .updateCell "nosheet" (fun _ => true) "c" "v"

/-- An oracle that never signals completion and always proposes the
same always-failing operation. -/
def alwaysFailOracle : Oracle := fun _ => .propose failOp

/-- An oracle that immediately reports it cannot determine a next
step. -/
def cannotOracle : Oracle := fun _ => .cannotProceed

/-- The empty document, used as a concrete input. -/
def docEx : Document := ⟨[]⟩

/-- A concrete one-sheet document with a single row, for witnesses. -/
def docS : Document :=
  parse [Node.elem "s" [Node.elem "row" [Node.elem "a" [Node.text "1"]]]]

/-- A concrete selector matching the row whose column "a" holds "1". -/
def selEx : Row → Bool := fun r => decide (rowGet r "a" = some "1")

/-- A concrete document with a choices sheet holding the single entry
key "A" of list "L", for witnesses. -/
def docC : Document :=
  parse [Node.elem "choices"
    [Node.elem "row" [Node.elem "list_name" [Node.text "L"], Node.elem "name" [Node.text "A"]]]]

/-- The document obtained from `docC` by adding entry "B" to list
"M". -/
def docC2 : Document :=
  (applyOp docC (.addChoiceEntries "M" ["B"])).1

/-! ### Helper lemmas for the frontend claims -/

lemma getLast?_of_suffix {l₁ l₂ : List Char} (h : l₁ <:+ l₂) (hne : l₁ ≠ []) :
    l₂.getLast? = l₁.getLast? := by
  obtain ⟨t, rfl⟩ := h
  exact List.getLast?_append_of_ne_nil t hne

lemma xlsx_excludes (s : String) (h : strEndsWith s ".xlsx" = true) :
    strEndsWith s ".xml" = false ∧ strEndsWith s ".xls" = false := by
  rw [strEndsWith, List.isSuffixOf_iff_suffix] at h
  have hx : s.data.getLast? = some 'x' := by
    rw [getLast?_of_suffix h (by decide)]; decide
  constructor
  · rw [strEndsWith]
    by_contra hc
    rw [Bool.not_eq_false, List.isSuffixOf_iff_suffix] at hc
    have hl : s.data.getLast? = some 'l' := by
      rw [getLast?_of_suffix hc (by decide)]; decide
    rw [hx] at hl
    simp at hl
  · rw [strEndsWith]
    by_contra hc
    rw [Bool.not_eq_false, List.isSuffixOf_iff_suffix] at hc
    have hl : s.data.getLast? = some 's' := by
      rw [getLast?_of_suffix hc (by decide)]; decide
    rw [hx] at hl
    simp at hl

lemma bucketTotal_step (acc : StatusCounts) (req : CustomizationRequest) :
    bucketTotal (statusCountsStep acc req) = bucketTotal acc + 1 := by
  unfold statusCountsStep bucketTotal
  split_ifs <;> simp <;> omega

lemma bucketTotal_foldl (reqs : List CustomizationRequest) (acc : StatusCounts) :
    bucketTotal (reqs.foldl statusCountsStep acc) = bucketTotal acc + reqs.length := by
  induction reqs generalizing acc with
  | nil => simp
  | cons r rs ih =>
    simp only [List.foldl_cons, List.length_cons, ih, bucketTotal_step]
    omega

/-! ### Frontend claims -/

/-- C8: the upload page's file-type gate. The pending file is set (and
any previous upload result cleared) exactly when the argument is
non-null and its name ends with ".xml" or ".xls"; every other argument
(including names ending with ".xlsx") leaves both state fields
unchanged and produces the error notification. -/
theorem c8_upload_file_type_gate (arg : Option UploadFile) (st : UploadState) :
    (acceptsFile arg = true →
      handleFileSelect arg st = ({ st with file := arg, uploadResult := none }, none)) ∧
    (acceptsFile arg = false →
      handleFileSelect arg st = (st, some fileTypeErrorMsg)) ∧
    (∀ f : UploadFile, strEndsWith f.name ".xlsx" = true →
      acceptsFile (some f) = false) := by
  refine ⟨?_, ?_, ?_⟩
  · intro h
    match arg with
    | some f =>
      simp only [acceptsFile] at h
      simp [handleFileSelect, h]
    | none => simp [acceptsFile] at h
  · intro h
    match arg with
    | some f =>
      simp only [acceptsFile] at h
      simp [handleFileSelect, h]
    | none => simp [handleFileSelect]
  · intro f hf
    obtain ⟨h1, h2⟩ := xlsx_excludes f.name hf
    simp [acceptsFile, h1, h2]

/-- Witness for C8 at concrete inputs: "form.xml" is accepted, and
"form.xlsx" is rejected leaving the state unchanged. -/
theorem c8_upload_file_type_gate_witness :
    handleFileSelect (some ⟨"form.xml"⟩) ⟨none, none⟩ =
      ({ file := some ⟨"form.xml"⟩, uploadResult := none }, none) ∧
    handleFileSelect (some ⟨"form.xlsx"⟩) ⟨some ⟨"a.xml"⟩, none⟩ =
      (⟨some ⟨"a.xml"⟩, none⟩, some fileTypeErrorMsg) := by
  constructor
  · exact (c8_upload_file_type_gate (some ⟨"form.xml"⟩) ⟨none, none⟩).1 (by decide)
  · exact (c8_upload_file_type_gate (some ⟨"form.xlsx"⟩) ⟨some ⟨"a.xml"⟩, none⟩).2.1
      ((c8_upload_file_type_gate (some ⟨"form.xlsx"⟩) ⟨some ⟨"a.xml"⟩, none⟩).2.2
        ⟨"form.xlsx"⟩ (by decide))

/-- C9: the dashboard's success rate is "0.0" whenever
`form_operations` is not positive, otherwise the division formatted to
one decimal place; recomputing it with a guarded division never hits a
zero denominator. -/
theorem c9_success_rate_division_guard (stats : DashboardStats) :
    successRateChecked stats = some (successRate stats) ∧
    (stats.form_operations ≤ 0 → successRate stats = "0.0") := by
  constructor
  · by_cases h : 0 < stats.form_operations
    · have hb : ((stats.form_operations : ℚ)) ≠ 0 :=
        Int.cast_ne_zero.mpr (by omega)
      simp [successRateChecked, successRate, safeDiv, h, hb]
    · simp [successRateChecked, successRate, h]
  · intro hle
    have h : ¬ 0 < stats.form_operations := by omega
    simp [successRate, h]

/-- Witness for C9 at a concrete stats object with zero operations. -/
theorem c9_success_rate_division_guard_witness :
    successRateChecked ⟨0, 7⟩ = some (successRate ⟨0, 7⟩) ∧
    successRate ⟨0, 7⟩ = "0.0" :=
  ⟨(c9_success_rate_division_guard ⟨0, 7⟩).1,
   (c9_success_rate_division_guard ⟨0, 7⟩).2 (by decide)⟩

/-- C10: the `statusCounts` reduction partitions the requests: the sum
of the three pie-chart values (missing buckets defaulting to 0) equals
the number of customization requests. -/
theorem c10_request_status_partition (reqs : List CustomizationRequest) :
    (requestsDataValues (statusCounts reqs)).sum = reqs.length := by
  have h := bucketTotal_foldl reqs ⟨none, none, none⟩
  simp only [bucketTotal, Option.getD_none] at h
  simp only [statusCounts, requestsDataValues, List.sum_cons, List.sum_nil]
  omega

/-! ### Helper lemmas for the core claims -/

lemma serializeItem_parseNode (n : Node) : serializeItem (parseNode n) = n := by
  unfold parseNode
  cases h : sheetOf n with
  | none => rfl
  | some nr => rfl

lemma serialize_parse (raw : List Node) : serialize (parse raw) = raw := by
  induction raw with
  | nil => rfl
  | cons n ns ih =>
    simp only [parse, serialize, List.map_cons] at ih ⊢
    rw [serializeItem_parseNode]
    simpa using ih

lemma findSheet_updateSheetItems (items : List DocItem) (name : String)
    (f : List Row → List Row) :
    findSheet (updateSheetItems items name f) name = (findSheet items name).map f := by
  induction items with
  | nil => rfl
  | cons it rest ih =>
    cases it with
    | sheetItem n rows orig dirty =>
      by_cases h : n = name
      · simp [updateSheetItems, findSheet, h]
      · simp [updateSheetItems, findSheet, h, ih]
    | scaffold m => simp [updateSheetItems, findSheet, ih]

lemma findSheetD_updateSheet (d : Document) (name : String) (f : List Row → List Row) :
    findSheetD (updateSheet d name f) name = (findSheetD d name).map f :=
  findSheet_updateSheetItems d.items name f

/-! ### Core claims: document model and mutation engine -/

/-- C1: serialization round-trip is idempotent — for every raw markup
input, serializing the parse of the serialization of the parse equals
serializing the parse; and for any Document with no operations applied
to the re-parsed copy, serialize∘parse∘serialize equals serialize. -/
theorem c1_serialize_roundtrip (x : List Node) (d : Document) :
    serialize (parse (serialize (parse x))) = serialize (parse x) ∧
    serialize (parse (serialize d)) = serialize d :=
  ⟨by rw [serialize_parse], by rw [serialize_parse]⟩

/-- C3: per-operation atomicity of the mutation engine — whenever
`applyOp` reports an error, the returned Document is the input
Document unchanged. -/
theorem c3_per_operation_atomicity (d : Document) (op : EditOperation)
    (h : ((applyOp d op).2).isSome = true) : (applyOp d op).1 = d := by
  cases op with
  | addRow s rowData =>
    cases hf : findSheetD d s <;> simp [applyOp, hf] at h ⊢
  | updateCell s sel col v =>
    cases hf : findSheetD d s with
    | none => simp [applyOp, hf]
    | some rows =>
      by_cases hs : rows.any sel <;> simp [applyOp, hf, hs] at h ⊢
  | deleteRows s pred =>
    cases hf : findSheetD d s <;> simp [applyOp, hf] at h ⊢
  | addChoiceEntries ln entries =>
    cases hf : findSheetD d "choices" with
    | none => simp [applyOp, hf]
    | some rows =>
      by_cases hdup : entries.any (fun k => decide (k ∈ choiceKeys rows ln)) <;>
        simp [applyOp, hf, hdup] at h ⊢
  | renameField oldN newN =>
    by_cases hx : fieldExists d oldN <;> simp [applyOp, hx] at h ⊢
  | other descr => simp [applyOp] at h

/-- Witness for C3: adding a row to a missing sheet of the empty
document fails and returns the document unchanged. -/
theorem c3_per_operation_atomicity_witness :
    (applyOp docEx (.addRow "s" [])).1 = docEx :=
  c3_per_operation_atomicity docEx (.addRow "s" []) (by rfl)

/-- C6: `UpdateCell` semantics — given the named sheet exists with the
given rows, the operation fails with `RowNotFound` exactly when the
selector matches zero rows, and when at least one row matches it
succeeds and updates the selected column in every matching row. -/
theorem c6_update_cell_semantics (d : Document) (s : String) (sel : Row → Bool)
    (col v : String) (rows : List Row) (hf : findSheetD d s = some rows) :
    ((applyOp d (.updateCell s sel col v)).2 = some .rowNotFound ↔
      rows.filter sel = []) ∧
    (rows.any sel = true →
      (applyOp d (.updateCell s sel col v)).2 = none ∧
      findSheetD (applyOp d (.updateCell s sel col v)).1 s =
        some (rows.map (fun r => if sel r then setCell r col v else r))) := by
  constructor
  · by_cases hs : rows.any sel
    · simp only [applyOp, hf, hs, if_true]
      obtain ⟨r, hr, hsel⟩ := List.any_eq_true.mp hs
      constructor
      · intro hc; simp at hc
      · intro hnil
        have := List.filter_eq_nil_iff.mp hnil r hr
        simp [hsel] at this
    · simp only [applyOp, hf, hs, if_false]
      constructor
      · intro _
        apply List.filter_eq_nil_iff.mpr
        intro r hr hsel
        exact hs (List.any_eq_true.mpr ⟨r, hr, hsel⟩)
      · intro _; rfl
  · intro hs
    simp only [applyOp, hf, hs, if_true]
    refine ⟨by trivial, ?_⟩
    rw [findSheetD_updateSheet, hf]
    rfl

/-- Witness for C6: updating the matched cell of the concrete one-row
sheet succeeds and rewrites the cell. -/
theorem c6_update_cell_semantics_witness :
    (applyOp docS (.updateCell "s" selEx "a" "2")).2 = none ∧
    findSheetD (applyOp docS (.updateCell "s" selEx "a" "2")).1 "s" =
      some [[("a", "2")]] := by
  have h := (c6_update_cell_semantics docS "s" selEx "a" "2" [[("a", "1")]] rfl).2 (by decide)
  refine ⟨h.1, ?_⟩
  rw [h.2]
  rfl

lemma choiceKeys_append (rows1 rows2 : List Row) (ln : String) :
    choiceKeys (rows1 ++ rows2) ln = choiceKeys rows1 ln ++ choiceKeys rows2 ln :=
  List.filterMap_append rows1 rows2 _

lemma choiceKeys_choiceRows (ln : String) (entries : List String) :
    choiceKeys (entries.map (choiceRow ln)) ln = entries := by
  induction entries with
  | nil => rfl
  | cons k ks ih =>
    simp only [List.map_cons, choiceKeys, List.filterMap_cons] at ih ⊢
    rw [show rowGet (choiceRow ln k) "list_name" = some ln from rfl]
    rw [if_pos rfl]
    rw [show rowGet (choiceRow ln k) "name" = some k from rfl]
    rw [ih]

/-- C5: `AddChoiceEntries` duplicate rejection — when some entry key is
already present for the list, the operation is rejected with
`DuplicateChoiceKey` and the Document is unchanged; in particular,
re-applying a successful nonempty `AddChoiceEntries` is rejected rather
than silently duplicated. -/
theorem c5_duplicate_choice_key :
    (∀ (d : Document) (ln : String) (entries : List String),
        (∃ k ∈ entries, k ∈ existingChoiceKeys d ln) →
        applyOp d (.addChoiceEntries ln entries) = (d, some .duplicateChoiceKey)) ∧
    (∀ (d d' : Document) (ln : String) (entries : List String),
        entries ≠ [] →
        applyOp d (.addChoiceEntries ln entries) = (d', none) →
        applyOp d' (.addChoiceEntries ln entries) = (d', some .duplicateChoiceKey)) := by
  constructor
  · rintro d ln entries ⟨k, hk, hmem⟩
    cases hf : findSheetD d "choices" with
    | none => simp [existingChoiceKeys, hf] at hmem
    | some rows =>
      rw [existingChoiceKeys, hf] at hmem
      have hdup : entries.any (fun k' => decide (k' ∈ choiceKeys rows ln)) = true :=
        List.any_eq_true.mpr ⟨k, hk, by simpa using hmem⟩
      simp [applyOp, hf, hdup]
  · intro d d' ln entries hne hsucc
    cases hf : findSheetD d "choices" with
    | none => simp [applyOp, hf] at hsucc
    | some rows =>
      by_cases hdup : entries.any (fun k' => decide (k' ∈ choiceKeys rows ln)) = true
      · simp [applyOp, hf, hdup] at hsucc
      · simp only [applyOp, hf, hdup, Bool.false_eq_true, if_false,
          Prod.mk.injEq, and_true] at hsucc
        subst hsucc
        obtain ⟨k, hk⟩ : ∃ k, k ∈ entries := List.exists_mem_of_ne_nil entries hne
        have hf' : findSheetD
            (updateSheet d "choices" (fun rs => rs ++ entries.map (choiceRow ln)))
            "choices" = some (rows ++ entries.map (choiceRow ln)) := by
          rw [findSheetD_updateSheet, hf]
          rfl
        have hmem' : k ∈ choiceKeys (rows ++ entries.map (choiceRow ln)) ln := by
          rw [choiceKeys_append, choiceKeys_choiceRows]
          exact List.mem_append_right _ hk
        have hdup' : entries.any
            (fun k' => decide (k' ∈ choiceKeys (rows ++ entries.map (choiceRow ln)) ln)) =
            true :=
          List.any_eq_true.mpr ⟨k, hk, by simpa using hmem'⟩
        simp [applyOp, hf', hdup']

/-- Witness for C5: on the concrete choices sheet, re-adding the
present key "A" of list "L" is rejected, and re-applying the add of
"B" to list "M" after its success is rejected. -/
theorem c5_duplicate_choice_key_witness :
    applyOp docC (.addChoiceEntries "L" ["A"]) = (docC, some .duplicateChoiceKey) ∧
    applyOp docC2 (.addChoiceEntries "M" ["B"]) = (docC2, some .duplicateChoiceKey) := by
  constructor
  · exact c5_duplicate_choice_key.1 docC "L" ["A"] ⟨"A", by decide, by decide⟩
  · exact c5_duplicate_choice_key.2 docC docC2 "M" ["B"] (by decide) (by rfl)

/-! ### Helper lemmas for the orchestration claims -/

lemma stepCycle_origDoc (cfg : Cfg) (oracle : Oracle) (st : RunState) :
    (stepOutState (stepCycle cfg oracle st)).origDoc = st.origDoc := by
  unfold stepCycle
  cases oracle st.log with
  | complete => rfl
  | cannotProceed => rfl
  | propose op =>
    dsimp only
    cases happly : applyOp st.doc op with
    | mk d' err =>
      cases err with
      | none => rfl
      | some e =>
        dsimp only
        split <;> rfl

lemma loopRun_origDoc (cfg : Cfg) (oracle : Oracle) (fuel : Nat) :
    ∀ st : RunState, ((loopRun cfg oracle fuel st).2).origDoc = st.origDoc := by
  induction fuel with
  | zero => intro st; rfl
  | succ n ih =>
    intro st
    unfold loopRun
    cases hs : stepCycle cfg oracle st with
    | halt status st' =>
      have h := stepCycle_origDoc cfg oracle st
      rw [hs] at h
      exact h
    | cont st' =>
      have h := stepCycle_origDoc cfg oracle st
      rw [hs] at h
      dsimp only
      rw [ih st']
      exact h

lemma stepCycle_iters (cfg : Cfg) (oracle : Oracle) (st : RunState) :
    (stepOutState (stepCycle cfg oracle st)).iters ≤ st.iters + 1 := by
  unfold stepCycle
  cases oracle st.log with
  | complete => exact Nat.le_succ _
  | cannotProceed => exact Nat.le_succ _
  | propose op =>
    dsimp only
    cases happly : applyOp st.doc op with
    | mk d' err =>
      cases err with
      | none => exact Nat.le_refl _
      | some e =>
        dsimp only
        split <;> exact Nat.le_refl _

lemma loopRun_iters (cfg : Cfg) (oracle : Oracle) (fuel : Nat) :
    ∀ st : RunState, ((loopRun cfg oracle fuel st).2).iters ≤ st.iters + fuel := by
  induction fuel with
  | zero => intro st; exact Nat.le_refl _
  | succ n ih =>
    intro st
    unfold loopRun
    cases hs : stepCycle cfg oracle st with
    | halt status st' =>
      have h := stepCycle_iters cfg oracle st
      rw [hs] at h
      dsimp only [stepOutState] at h
      exact Nat.le_trans h (by omega)
    | cont st' =>
      have h := stepCycle_iters cfg oracle st
      rw [hs] at h
      dsimp only [stepOutState] at h
      dsimp only
      have h2 := ih st'
      omega

lemma stepCycle_noop (cfg : Cfg) (st : RunState) :
    stepCycle cfg noopOracle st =
      .cont { st with doc := st.doc,
                      log := st.log ++ [⟨.other "noop", true, none⟩],
                      iters := st.iters + 1 } := rfl

lemma loopRun_noop (cfg : Cfg) (fuel : Nat) :
    ∀ st : RunState,
      (loopRun cfg noopOracle fuel st).1 = .abortedMaxIterations ∧
      ((loopRun cfg noopOracle fuel st).2).iters = st.iters + fuel := by
  induction fuel with
  | zero => intro st; exact ⟨rfl, rfl⟩
  | succ n ih =>
    intro st
    unfold loopRun
    rw [stepCycle_noop]
    dsimp only
    obtain ⟨ih1, ih2⟩ := ih
      { st with doc := st.doc,
                log := st.log ++ [⟨.other "noop", true, none⟩],
                iters := st.iters + 1 }
    refine ⟨ih1, ?_⟩
    rw [ih2]
    show st.iters + 1 + n = st.iters + (n + 1)
    omega

/-! ### Core claims: orchestration loop -/

/-- C2: whole-session atomicity — whenever a run ends in any
non-success terminal state, the session closes rolled back and the
committed Document is exactly the originally-loaded one; every
operation applied during the session is discarded together. -/
theorem c2_whole_session_atomicity (cfg : Cfg) (oracle : Oracle) (d : Document)
    (h : (runEdit cfg oracle d).status ≠ .terminatedSuccess) :
    (runEdit cfg oracle d).sessionStatus = .rolledBack ∧
    (runEdit cfg oracle d).committedDoc = d := by
  have hs : (runEdit cfg oracle d).status =
      (loopRun cfg oracle cfg.maxIterations (initState d)).1 := rfl
  rw [hs] at h
  constructor
  · show (if (loopRun cfg oracle cfg.maxIterations (initState d)).1 = .terminatedSuccess
        then SessionStatus.committed else SessionStatus.rolledBack) = .rolledBack
    rw [if_neg h]
  · show (if (loopRun cfg oracle cfg.maxIterations (initState d)).1 = .terminatedSuccess
        then (loopRun cfg oracle cfg.maxIterations (initState d)).2.doc
        else (loopRun cfg oracle cfg.maxIterations (initState d)).2.origDoc) = d
    rw [if_neg h]
    exact loopRun_origDoc cfg oracle cfg.maxIterations (initState d)

/-- Witness for C2: a run whose oracle immediately reports it cannot
proceed ends non-successfully, rolls back, and commits the original
empty document. -/
theorem c2_whole_session_atomicity_witness :
    (runEdit cfgDefault cannotOracle docEx).sessionStatus = .rolledBack ∧
    (runEdit cfgDefault cannotOracle docEx).committedDoc = docEx :=
  c2_whole_session_atomicity cfgDefault cannotOracle docEx (by decide)

/-- C4 (amended): every run performs at most the configured number of
cycles; an oracle that never signals completion and whose proposals
keep succeeding (always proposing a no-op) terminates at exactly the
configured cap with `Aborted(maxIterationsExceeded)`, an outcome
distinct from `Terminated(failure)`; an always-failing oracle instead
terminates earlier, at the per-kind retry bound, with
`Terminated(failure)`. -/
theorem c4_iteration_cap :
    (∀ (cfg : Cfg) (oracle : Oracle) (d : Document),
        (runEdit cfg oracle d).iterations ≤ cfg.maxIterations) ∧
    (∀ (cfg : Cfg) (d : Document),
        (runEdit cfg noopOracle d).status = .abortedMaxIterations ∧
        (runEdit cfg noopOracle d).iterations = cfg.maxIterations) ∧
    RunStatus.abortedMaxIterations ≠ RunStatus.terminatedFailure ∧
    (runEdit cfgDefault alwaysFailOracle docEx).status = .terminatedFailure ∧
    (runEdit cfgDefault alwaysFailOracle docEx).iterations = 3 := by
  refine ⟨?_, ?_, by decide, by decide, by decide⟩
  · intro cfg oracle d
    have h := loopRun_iters cfg oracle cfg.maxIterations (initState d)
    simpa [runEdit, initState] using h
  · intro cfg d
    obtain ⟨h1, h2⟩ := loopRun_noop cfg cfg.maxIterations (initState d)
    constructor
    · show (loopRun cfg noopOracle cfg.maxIterations (initState d)).1 = .abortedMaxIterations
      exact h1
    · show ((loopRun cfg noopOracle cfg.maxIterations (initState d)).2).iters =
        cfg.maxIterations
      rw [h2]
      show 0 + cfg.maxIterations = cfg.maxIterations
      omega

/-- Witness for C4 (amended) at concrete inputs: the no-op oracle on
the empty document stays within and reaches the default cap, aborted. -/
theorem c4_iteration_cap_witness :
    (runEdit cfgDefault noopOracle docEx).iterations ≤ cfgDefault.maxIterations ∧
    (runEdit cfgDefault noopOracle docEx).status = .abortedMaxIterations :=
  ⟨c4_iteration_cap.1 cfgDefault noopOracle docEx,
   (c4_iteration_cap.2.1 cfgDefault docEx).1⟩

/-- Counterexample for C4 as stated: the always-failing oracle never
signals completion, yet under the default configuration the run does
not abort at the cap of 15 — it terminates with failure after 3 cycles
via the retry bound. -/
theorem c4_iteration_cap_counterexample :
    (runEdit cfgDefault alwaysFailOracle docEx).status ≠ .abortedMaxIterations ∧
    (runEdit cfgDefault alwaysFailOracle docEx).iterations ≠ cfgDefault.maxIterations := by
  decide

/-- C7: recoverable-error propagation — when the oracle proposes an
operation whose apply fails with an operation-scoped error, the cycle
never terminates the run while the per-kind failure count stays within
the retry bound: it loops back to Reasoning with the failure recorded
in the log and the working Document untouched; once the bound is
exceeded the run escalates to `Terminated(failure)`. -/
theorem c7_recoverable_error_propagation (cfg : Cfg) (oracle : Oracle) (st : RunState)
    (op : EditOperation) (e : MutationError)
    (hor : oracle st.log = .propose op)
    (happ : (applyOp st.doc op).2 = some e) :
    (st.failCounts (opKind op) + 1 ≤ cfg.retryLimit →
      stepCycle cfg oracle st = .cont (failState st op e)) ∧
    (cfg.retryLimit < st.failCounts (opKind op) + 1 →
      stepCycle cfg oracle st = .halt .terminatedFailure (failState st op e)) ∧
    (failState st op e).doc = st.doc ∧
    (failState st op e).log = st.log ++ [⟨op, false, some e⟩] := by
  have hstep : stepCycle cfg oracle st =
      if cfg.retryLimit < st.failCounts (opKind op) + 1 then
        .halt .terminatedFailure (failState st op e)
      else .cont (failState st op e) := by
    unfold stepCycle
    rw [hor]
    dsimp only
    cases hp : applyOp st.doc op with
    | mk d₀ err =>
      rw [hp] at happ
      dsimp only at happ
      subst happ
      rfl
  refine ⟨?_, ?_, rfl, rfl⟩
  · intro hle
    rw [hstep, if_neg (by omega)]
  · intro hgt
    rw [hstep, if_pos hgt]

/-- Witness for C7: the failing update on the empty document is a
recoverable failure — with a zero failure count the cycle continues to
Reasoning with the failure logged. -/
theorem c7_recoverable_error_propagation_witness :
    stepCycle cfgDefault alwaysFailOracle (initState docEx) =
      .cont (failState (initState docEx) failOp .unknownSheet) :=
  (c7_recoverable_error_propagation cfgDefault alwaysFailOracle (initState docEx)
    failOp .unknownSheet rfl rfl).1 (by decide)

end DE4
